import Mathlib

/-!
Shallow embedding of the flow3rtron game core (src/__init__.py) and proofs
of the specified properties.

Modelling conventions:
* Python floats are modelled as exact rationals (`ℚ`).  The only float
  primitive whose behaviour matters to the claims is `math.isclose`, which
  is embedded with its exact CPython definition (rel_tol = 1e-9,
  abs_tol = 0); its degenerate behaviour against 0 is identical in IEEE
  arithmetic and in exact arithmetic.
* `math.sin`/`math.cos` are transcendental; the embedding abstracts them as
  an arbitrary pair of functions `Trig` from the direction in degrees to a
  rational value, standing for `sin(direction * τ / 360)` resp.
  `cos(direction * τ / 360)`.  Every control-flow decision of the source is
  independent of the trig values, so all structural theorems quantify over
  the trig oracle; concrete witnesses use an oracle that agrees with
  sin/cos at the directions they exercise.
* Python tuples `(x, y)` become `ℚ × ℚ`; a trace segment is a pair of
  points; Python structural `==` on tuples becomes decidable equality.
* The mutable `Player` object becomes a record, methods become functions
  `Player → Player`.
* `Board.players` (a dict iterated in insertion order) becomes a
  `List Player`; the in-place mutation of each player during the collision
  loop is modelled by an explicit indexed fold (`checkLoop`).
-/

/-- A point in arena coordinates, `(x, y)`. -/
abbrev Pt := ℚ × ℚ

/-- A trace segment: ordered pair of points. -/
abbrev Seg := Pt × Pt

/-- CPython `math.isclose(a, b)` with the default tolerances
`rel_tol = 1e-9`, `abs_tol = 0.0`:
`abs(a-b) <= max(rel_tol * max(abs(a), abs(b)), abs_tol)`. -/
def isclose (a b : ℚ) : Bool :=
  decide (|a - b| ≤ max ((1 / 1000000000) * max |a| |b|) 0)

/-- `denominator_a` from `collides` in the source. -/
def denominator_a (a b : Seg) : ℚ :=
  ((b.2.1 - b.1.1) * (a.1.2 - b.1.2)) - ((b.2.2 - b.1.2) * (a.1.1 - b.1.1))

/-- `denominator_b` from `collides` in the source. -/
def denominator_b (a b : Seg) : ℚ :=
  ((a.2.1 - a.1.1) * (a.1.2 - b.1.2)) - ((a.2.2 - a.1.2) * (a.1.1 - b.1.1))

/-- `numerator` from `collides` in the source. -/
def numerator (a b : Seg) : ℚ :=
  (b.2.2 - b.1.2) * (a.2.1 - a.1.1) - (b.2.1 - b.1.1) * (a.2.2 - a.1.2)

/-- The segment-intersection predicate `collides(a, b)` of the source. -/
def collides (a b : Seg) : Bool :=
  if isclose (numerator a b) 0 && isclose (denominator_a a b) 0 then
    -- coincident
    true
  else if isclose (numerator a b) 0 then
    -- parallel
    false
  else
    let u_a := denominator_a a b / numerator a b
    let u_b := denominator_b a b / numerator a b
    decide (0 < u_a ∧ u_a < 1 ∧ 0 < u_b ∧ u_b < 1)

/-- `isclose x 0` degenerates to exact equality: with `abs_tol = 0` the
bound is `|x| ≤ |x| / 10^9`, which only `x = 0` satisfies. -/
theorem isclose_zero_iff (x : ℚ) : isclose x 0 = true ↔ x = 0 := by
  unfold isclose
  rw [decide_eq_true_iff]
  constructor
  · intro h
    have hx : (0 : ℚ) ≤ |x| := abs_nonneg x
    have hm : max ((1 / 1000000000 : ℚ) * max |x| |(0 : ℚ)|) 0
        = (1 / 1000000000 : ℚ) * |x| := by
      rw [abs_zero, max_eq_left hx, max_eq_left (by positivity)]
    rw [sub_zero, hm] at h
    have hle : |x| ≤ 0 := by nlinarith
    exact abs_eq_zero.mp (le_antisymm hle hx)
  · intro h
    subst h
    simp

/-- Trig oracle: `sin d` stands for `math.sin(d * τ / 360)` and `cos d`
for `math.cos(d * τ / 360)`, with `d` the direction in degrees.  The
degree-to-radian conversion of the source is folded into the oracle. -/
structure Trig where
  sin : ℚ → ℚ
  cos : ℚ → ℚ

/-- Python `%` on reals for a positive modulus: `a - b * ⌊a / b⌋`. -/
def pmod (a b : ℚ) : ℚ := a - b * (⌊a / b⌋ : ℤ)

/-- The `Player` object.  `color` is render-only and omitted; `_pos`,
`_direction`, `_speed`, `_traces`, `_dead` are kept. -/
structure Player where
  pos : Pt
  direction : ℚ
  speed : ℚ
  traces : List Pt
  dead : Bool
  deriving DecidableEq

/-- `Player.__init__(start_pos)`. -/
def Player.init (start_pos : Pt) : Player :=
  { pos := start_pos, direction := 0, speed := 60,
    traces := [start_pos], dead := false }

/-- Consecutive pairs of a list: the segments traced by a polyline. -/
def consecPairs (l : List Pt) : List Seg := l.zip l.tail

/-- `Player.get_traces`: the segments pairing consecutive elements of
`traces ++ [pos]`. -/
def Player.get_traces (p : Player) : List Seg :=
  consecPairs (p.traces ++ [p.pos])

/-- `Player.die`. -/
def Player.die (p : Player) : Player := { p with dead := true }

/-- `Player.is_dead`. -/
def Player.is_dead (p : Player) : Bool := p.dead

/-- `(self._traces[-1], self._pos)`, the live segment used by
`check_collision`.  `_traces` is never empty in reachable states; the
default for the impossible empty case is `(0, 0)`. -/
def Player.my_latest_trace (p : Player) : Seg :=
  (p.traces.getLastD (0, 0), p.pos)

/-- `Player.check_collision(all_traces)`: skip candidates structurally
equal to the live segment, die on any colliding candidate.  The source
loop mutates `self._dead` only; it is embedded as a fold. -/
def Player.check_collision (p : Player) (all_traces : List Seg) : Player :=
  if p.dead then p
  else
    all_traces.foldl
      (fun q trace =>
        if trace = p.my_latest_trace then q
        else if collides p.my_latest_trace trace then q.die else q)
      p

/-- `Player.set_speed(speed)`: negative speed is ignored. -/
def Player.set_speed (p : Player) (speed : ℚ) : Player :=
  if speed < 0 then p else { p with speed := speed }

/-- `Player.set_direction(direction)`: a 180° reversal is ignored; an
actual change commits the new direction and appends the current position
to the traces. -/
def Player.set_direction (p : Player) (direction : ℚ) : Player :=
  if pmod (direction - p.direction) 360 = 180 then p
  else if direction ≠ p.direction then
    { p with direction := direction, traces := p.traces ++ [p.pos] }
  else p

/-- `Player.move(delta_ms)`: dead players do not move; otherwise the
position advances by `speed * delta_ms / 1000` along the heading, and the
player dies when the new position leaves the radius-120 disc. -/
def Player.move (t : Trig) (p : Player) (delta_ms : ℚ) : Player :=
  if p.dead then p
  else
    let speed_ms := p.speed * delta_ms / 1000
    let pos' : Pt := (p.pos.1 + speed_ms * t.sin p.direction,
                      p.pos.2 - speed_ms * t.cos p.direction)
    if pos'.1 ^ 2 + pos'.2 ^ 2 > 120 ^ 2 then
      Player.die { p with pos := pos' }
    else
      { p with pos := pos' }

/-- Default used to totalise indexed access into the player list; player
lists are never empty in reachable states. -/
def defaultPlayer : Player := Player.init (0, 0)

/-- The `Board` object: the dict `player_id -> Player` iterated in
insertion order becomes a list, `local_player` an index into it. -/
structure Board where
  players : List Player
  local_player : Nat

/-- `Board.__init__`: one player at `(-50, 0)`, locally controlled. -/
def Board.init : Board :=
  { players := [Player.init (-50, 0)], local_player := 0 }

/-- `all_petals = False` in `Board.think`. -/
def all_petals : Bool := false

/-- `range(0, 10, stepsize)` with `stepsize = 1 if all_petals else 2`. -/
def petalIndices : List Nat :=
  (List.range 10).filter (fun i => i % (if all_petals then 1 else 2) = 0)

/-- The local-input lines of `Board.think`: the first pressed petal among
`petalIndices` sets the local player's direction to `i * 360 / 10` and
the scan stops. -/
def Board.applyInput (b : Board) (petals : List Bool) : Board :=
  match petalIndices.find? (fun i => petals.getD i false) with
  | none => b
  | some i =>
      { b with
        players := b.players.set b.local_player
          ((b.players.getD b.local_player defaultPlayer).set_direction
            ((i : ℚ) * 360 / 10)) }

/-- `chain(pl.get_traces() for pl in self.players.values())`. -/
def allTraces (ps : List Player) : List Seg :=
  ps.flatMap Player.get_traces

/-- One iteration of the collision loop of `Board.think`: player `k` runs
`check_collision` against the traces of the current player list and is
updated in place. -/
def checkStep (ps : List Player) (k : Nat) : List Player :=
  ps.set k ((ps.getD k defaultPlayer).check_collision (allTraces ps))

/-- The collision loop of `Board.think`, mutating players `0, …, m-1`
in order. -/
def checkLoop : Nat → List Player → List Player
  | 0, ps => ps
  | m + 1, ps => checkStep (checkLoop m ps) m

/-- `Board.think(inc, delta_ms)`: apply local input, move every player,
then run the collision loop over all players. -/
def Board.think (t : Trig) (b : Board) (petals : List Bool) (delta_ms : ℚ) :
    Board :=
  let b1 := b.applyInput petals
  let moved := b1.players.map (fun p => p.move t delta_ms)
  { b1 with players := checkLoop moved.length moved }

/-- `Board.game_over`. -/
def Board.game_over (b : Board) : Bool :=
  b.players.all Player.is_dead

/-- The `TronGame` object; `start_time` and `duration` are in
nanoseconds resp. seconds, as in the source. -/
structure TronGame where
  board : Board
  done : Bool
  start_time : ℚ
  duration : ℚ

/-- `TronGame.__init__`, with the current `time.time_ns()` passed in. -/
def TronGame.init (now : ℚ) : TronGame :=
  { board := Board.init, done := false, start_time := now, duration := 0 }

/-- `TronGame.is_done`. -/
def TronGame.is_done (g : TronGame) : Bool := g.done

/-- `TronGame.think(inc, delta_ms)`: advance the board; on game over,
latch `done` and capture `duration = (now - start_time) / 1e9` only if
`done` was not already set. -/
def TronGame.think (t : Trig) (g : TronGame) (petals : List Bool)
    (delta_ms : ℚ) (now : ℚ) : TronGame :=
  let board' := g.board.think t petals delta_ms
  if board'.game_over then
    if !g.done then
      { g with board := board', done := true,
               duration := (now - g.start_time) / 1000000000 }
    else
      { g with board := board' }
  else
    { g with board := board' }

/-! ### Helper lemmas -/

theorem Player.die_die (p : Player) : p.die.die = p.die := rfl

/-- The step function of the collision fold of `check_collision`. -/
def collisionStep (mine : Seg) (q : Player) (trace : Seg) : Player :=
  if trace = mine then q
  else if collides mine trace then q.die else q

/-- `check_collision` unfolded to `collisionStep`. -/
theorem check_collision_def (p : Player) (ts : List Seg) :
    p.check_collision ts =
      if p.dead then p
      else ts.foldl (collisionStep p.my_latest_trace) p := rfl

/-- The collision fold either leaves the accumulator alone or kills it. -/
theorem collision_foldl_cases (mine : Seg) (ts : List Seg) : ∀ q : Player,
    ts.foldl (collisionStep mine) q = q ∨
    ts.foldl (collisionStep mine) q = q.die := by
  induction ts with
  | nil => intro q; exact Or.inl rfl
  | cons hd tl ih =>
      intro q
      rw [List.foldl_cons]
      unfold collisionStep
      by_cases h1 : hd = mine
      · rw [if_pos h1]
        exact ih q
      · rw [if_neg h1]
        by_cases h2 : collides mine hd
        · rw [if_pos h2]
          rcases ih q.die with h | h
          · exact Or.inr h
          · exact Or.inr (h.trans (Player.die_die q))
        · rw [if_neg h2]
          exact ih q

/-- If a non-skipped colliding candidate is in the list, the fold kills
the accumulator. -/
theorem collision_foldl_dead (mine : Seg) (ts : List Seg) (trace : Seg)
    (hmem : trace ∈ ts) (hne : trace ≠ mine)
    (hcol : collides mine trace = true) :
    ∀ q : Player, (ts.foldl (collisionStep mine) q).dead = true := by
  induction ts with
  | nil => cases hmem
  | cons hd tl ih =>
      intro q
      rw [List.foldl_cons]
      rcases List.mem_cons.mp hmem with h | h
      · subst h
        have hstep : collisionStep mine q trace = q.die := by
          unfold collisionStep
          rw [if_neg hne, if_pos hcol]
        rw [hstep]
        rcases collision_foldl_cases mine tl q.die with hc | hc
        · rw [hc]; rfl
        · rw [hc]; rfl
      · exact ih h (collisionStep mine q hd)

/-- If no candidate both differs from the live segment and collides, the
fold is the identity. -/
theorem collision_foldl_id (mine : Seg) (ts : List Seg)
    (h : ∀ trace ∈ ts, trace = mine ∨ collides mine trace = false) :
    ∀ q : Player, ts.foldl (collisionStep mine) q = q := by
  induction ts with
  | nil => intro q; rfl
  | cons hd tl ih =>
      intro q
      rw [List.foldl_cons]
      have hstep : collisionStep mine q hd = q := by
        unfold collisionStep
        rcases h hd (List.mem_cons_self hd tl) with h1 | h1
        · rw [if_pos h1]
        · by_cases h2 : hd = mine
          · rw [if_pos h2]
          · rw [if_neg h2, if_neg (by rw [h1]; exact Bool.false_ne_true)]
      rw [hstep]
      exact ih (fun trace htr => h trace (List.mem_cons_of_mem hd htr)) q

/-- `check_collision` returns either the player or the killed player. -/
theorem check_collision_cases (p : Player) (ts : List Seg) :
    p.check_collision ts = p ∨ p.check_collision ts = p.die := by
  rw [check_collision_def]
  by_cases hd : p.dead
  · rw [if_pos hd]
    exact Or.inl rfl
  · rw [if_neg hd]
    exact collision_foldl_cases p.my_latest_trace ts p

theorem check_collision_pos (p : Player) (ts : List Seg) :
    (p.check_collision ts).pos = p.pos := by
  rcases check_collision_cases p ts with h | h
  · rw [h]
  · rw [h]; rfl

theorem check_collision_traces (p : Player) (ts : List Seg) :
    (p.check_collision ts).traces = p.traces := by
  rcases check_collision_cases p ts with h | h
  · rw [h]
  · rw [h]; rfl

theorem check_collision_direction (p : Player) (ts : List Seg) :
    (p.check_collision ts).direction = p.direction := by
  rcases check_collision_cases p ts with h | h
  · rw [h]
  · rw [h]; rfl

theorem check_collision_speed (p : Player) (ts : List Seg) :
    (p.check_collision ts).speed = p.speed := by
  rcases check_collision_cases p ts with h | h
  · rw [h]
  · rw [h]; rfl

theorem check_collision_dead_mono (p : Player) (ts : List Seg)
    (h : p.dead = true) : (p.check_collision ts).dead = true := by
  rcases check_collision_cases p ts with hc | hc
  · rw [hc]; exact h
  · rw [hc]; rfl

theorem get_traces_check_collision (p : Player) (ts : List Seg) :
    (p.check_collision ts).get_traces = p.get_traces := by
  unfold Player.get_traces
  rw [check_collision_traces, check_collision_pos]

/-- If some candidate other than the live segment collides with it, the
checked player ends up dead (whether or not it was dead before). -/
theorem check_collision_dead_of_exists (p : Player) (ts : List Seg)
    (h : ∃ trace ∈ ts, trace ≠ p.my_latest_trace ∧
      collides p.my_latest_trace trace = true) :
    (p.check_collision ts).dead = true := by
  rw [check_collision_def]
  by_cases hd : p.dead
  · rw [if_pos hd]; exact hd
  · rw [if_neg hd]
    rcases h with ⟨trace, hmem, hne, hcol⟩
    exact collision_foldl_dead p.my_latest_trace ts trace hmem hne hcol p

/-- The dead flag after `check_collision` on a live player, exactly. -/
theorem check_collision_dead_iff (p : Player) (ts : List Seg)
    (h : p.dead = false) :
    ((p.check_collision ts).dead = true ↔
      ∃ trace ∈ ts, trace ≠ p.my_latest_trace ∧
        collides p.my_latest_trace trace = true) := by
  constructor
  · intro hdead
    by_contra hno
    push_neg at hno
    have hid : p.check_collision ts = p := by
      rw [check_collision_def, if_neg (by rw [h]; exact Bool.false_ne_true)]
      refine collision_foldl_id p.my_latest_trace ts ?_ p
      intro trace htr
      by_cases he : trace = p.my_latest_trace
      · exact Or.inl he
      · rcases Bool.eq_false_or_eq_true (collides p.my_latest_trace trace)
          with hb | hb
        · exact absurd hb (hno trace htr he)
        · exact Or.inr hb
    rw [hid, h] at hdead
    exact Bool.false_ne_true hdead
  · exact check_collision_dead_of_exists p ts

/-! ### Move and direction helper lemmas -/

/-- `move` with the `let`-bindings of the source inlined. -/
theorem move_eq (t : Trig) (p : Player) (delta_ms : ℚ) :
    p.move t delta_ms =
      if p.dead then p
      else if (p.pos.1 + p.speed * delta_ms / 1000 * t.sin p.direction) ^ 2 +
          (p.pos.2 - p.speed * delta_ms / 1000 * t.cos p.direction) ^ 2
          > 120 ^ 2 then
        Player.die
          { p with pos := (p.pos.1 + p.speed * delta_ms / 1000 * t.sin p.direction,
                           p.pos.2 - p.speed * delta_ms / 1000 * t.cos p.direction) }
      else
        { p with pos := (p.pos.1 + p.speed * delta_ms / 1000 * t.sin p.direction,
                         p.pos.2 - p.speed * delta_ms / 1000 * t.cos p.direction) } :=
  rfl

theorem move_dead (t : Trig) (p : Player) (delta_ms : ℚ) (h : p.dead = true) :
    p.move t delta_ms = p := by
  rw [move_eq, if_pos h]

theorem move_alive_pos (t : Trig) (p : Player) (delta_ms : ℚ)
    (h : p.dead = false) :
    (p.move t delta_ms).pos =
      (p.pos.1 + p.speed * delta_ms / 1000 * t.sin p.direction,
       p.pos.2 - p.speed * delta_ms / 1000 * t.cos p.direction) := by
  rw [move_eq, if_neg (by rw [h]; exact Bool.false_ne_true)]
  split
  · rfl
  · rfl

theorem move_alive_dead_iff (t : Trig) (p : Player) (delta_ms : ℚ)
    (h : p.dead = false) :
    ((p.move t delta_ms).dead = true ↔
      (p.move t delta_ms).pos.1 ^ 2 + (p.move t delta_ms).pos.2 ^ 2
        > 120 ^ 2) := by
  rw [move_eq, if_neg (by rw [h]; exact Bool.false_ne_true)]
  split
  · next hgt =>
      exact ⟨fun _ => hgt, fun _ => rfl⟩
  · next hgt =>
      constructor
      · intro hd
        have hd' : p.dead = true := hd
        rw [h] at hd'
        exact absurd hd' Bool.false_ne_true
      · intro hgt2
        exact absurd hgt2 hgt

theorem move_traces (t : Trig) (p : Player) (delta_ms : ℚ) :
    (p.move t delta_ms).traces = p.traces := by
  rw [move_eq]
  split
  · rfl
  · split
    · rfl
    · rfl

theorem move_direction (t : Trig) (p : Player) (delta_ms : ℚ) :
    (p.move t delta_ms).direction = p.direction := by
  rw [move_eq]
  split
  · rfl
  · split
    · rfl
    · rfl

theorem move_speed (t : Trig) (p : Player) (delta_ms : ℚ) :
    (p.move t delta_ms).speed = p.speed := by
  rw [move_eq]
  split
  · rfl
  · split
    · rfl
    · rfl

theorem move_dead_mono (t : Trig) (p : Player) (delta_ms : ℚ)
    (h : p.dead = true) : (p.move t delta_ms).dead = true := by
  rw [move_dead t p delta_ms h]
  exact h

theorem pmod_self_sub (x : ℚ) : pmod (x - x) 360 = 0 := by
  unfold pmod
  norm_num

theorem set_direction_same (p : Player) : p.set_direction p.direction = p := by
  unfold Player.set_direction
  rw [if_neg (by rw [pmod_self_sub]; norm_num)]
  rw [if_neg (by simp)]

theorem set_direction_commit (p : Player) (d : ℚ)
    (hne : d ≠ p.direction) (hrev : pmod (d - p.direction) 360 ≠ 180) :
    p.set_direction d =
      { p with direction := d, traces := p.traces ++ [p.pos] } := by
  unfold Player.set_direction
  rw [if_neg hrev, if_pos hne]

theorem set_direction_reversal (p : Player) (d : ℚ)
    (hrev : pmod (d - p.direction) 360 = 180) :
    p.set_direction d = p := by
  unfold Player.set_direction
  rw [if_pos hrev]

theorem set_speed_neg (p : Player) (s : ℚ) (h : s < 0) :
    p.set_speed s = p := by
  unfold Player.set_speed
  rw [if_pos h]

theorem set_speed_nonneg (p : Player) (s : ℚ) (h : 0 ≤ s) :
    p.set_speed s = { p with speed := s } := by
  unfold Player.set_speed
  rw [if_neg (not_lt.mpr h)]

/-! ### List helper lemmas -/

theorem getD_set_self {α : Type} (l : List α) (k : Nat) (a d : α)
    (h : k < l.length) : (l.set k a).getD k d = a := by
  rw [List.getD_eq_getElem?_getD, List.getElem?_set_self h]
  rfl

theorem getD_set_ne {α : Type} (l : List α) (k i : Nat) (a d : α)
    (h : k ≠ i) : (l.set k a).getD i d = l.getD i d := by
  rw [List.getD_eq_getElem?_getD, List.getElem?_set_ne h,
    ← List.getD_eq_getElem?_getD]

theorem getD_mem {α : Type} (l : List α) (i : Nat) (d : α)
    (h : i < l.length) : l.getD i d ∈ l := by
  rw [List.getD_eq_getElem?_getD, List.getElem?_eq_getElem h]
  exact List.getElem_mem h

theorem getLastD_irrel {α : Type} (l : List α) (h : l ≠ []) (a b : α) :
    l.getLastD a = l.getLastD b := by
  induction l generalizing a b with
  | nil => exact absurd rfl h
  | cons hd tl ih =>
      cases tl with
      | nil => rfl
      | cons hd2 tl2 => rfl

theorem getLastD_cons_of_ne {α : Type} (hd : α) (l : List α) (h : l ≠ [])
    (d : α) : (hd :: l).getLastD d = l.getLastD d := by
  cases l with
  | nil => exact absurd rfl h
  | cons hd2 tl2 => exact getLastD_irrel (hd2 :: tl2) h hd d

theorem consecPairs_cons_cons (x y : Pt) (l : List Pt) :
    consecPairs (x :: y :: l) = (x, y) :: consecPairs (y :: l) := rfl

/-- Appending one waypoint to a nonempty polyline appends one closing
segment from the previous last waypoint. -/
theorem consecPairs_append_singleton (l : List Pt) (x : Pt) (h : l ≠ []) :
    consecPairs (l ++ [x]) = consecPairs l ++ [(l.getLastD (0, 0), x)] := by
  induction l with
  | nil => exact absurd rfl h
  | cons hd tl ih =>
      cases tl with
      | nil => rfl
      | cons hd2 tl2 =>
          have hne : hd2 :: tl2 ≠ [] := List.cons_ne_nil hd2 tl2
          rw [show (hd :: hd2 :: tl2) ++ [x] = hd :: hd2 :: (tl2 ++ [x])
            from rfl]
          rw [consecPairs_cons_cons hd hd2 (tl2 ++ [x])]
          rw [show (hd2 :: (tl2 ++ [x]) : List Pt) = (hd2 :: tl2) ++ [x]
            from rfl]
          rw [ih hne]
          rw [consecPairs_cons_cons hd hd2 tl2]
          rw [getLastD_cons_of_ne hd (hd2 :: tl2) hne]
          rfl

/-- The live segment is the final element of `get_traces`. -/
theorem my_latest_trace_mem_get_traces (p : Player) (h : p.traces ≠ []) :
    p.my_latest_trace ∈ p.get_traces := by
  unfold Player.my_latest_trace Player.get_traces
  rw [consecPairs_append_singleton p.traces p.pos h]
  exact List.mem_append_right _ (List.mem_singleton.mpr rfl)

/-! ### Collision-loop lemmas: the loop observes one tick-frozen snapshot -/

theorem allTraces_set (ps : List Player) : ∀ (k : Nat) (q : Player),
    q.get_traces = (ps.getD k defaultPlayer).get_traces →
    allTraces (ps.set k q) = allTraces ps := by
  induction ps with
  | nil => intro k q _; rfl
  | cons a tl ih =>
      intro k q h
      cases k with
      | zero =>
          unfold allTraces
          rw [List.set_cons_zero, List.flatMap_cons, List.flatMap_cons]
          rw [show ((a :: tl).getD 0 defaultPlayer) = a from rfl] at h
          rw [h]
      | succ k =>
          unfold allTraces
          rw [List.set_cons_succ, List.flatMap_cons, List.flatMap_cons]
          rw [show ((a :: tl).getD (k + 1) defaultPlayer)
            = tl.getD k defaultPlayer from rfl] at h
          exact congrArg _ (ih k q h)

theorem allTraces_checkStep (ps : List Player) (k : Nat) :
    allTraces (checkStep ps k) = allTraces ps :=
  allTraces_set ps k _ (get_traces_check_collision _ _)

theorem length_checkLoop (ps : List Player) : ∀ m,
    (checkLoop m ps).length = ps.length := by
  intro m
  induction m with
  | zero => rfl
  | succ m ih =>
      show (checkStep (checkLoop m ps) m).length = ps.length
      unfold checkStep
      rw [List.length_set]
      exact ih

theorem allTraces_checkLoop (ps : List Player) : ∀ m,
    allTraces (checkLoop m ps) = allTraces ps := by
  intro m
  induction m with
  | zero => rfl
  | succ m ih =>
      show allTraces (checkStep (checkLoop m ps) m) = allTraces ps
      rw [allTraces_checkStep]
      exact ih

theorem checkLoop_getD_ge (ps : List Player) : ∀ (m i : Nat), m ≤ i →
    (checkLoop m ps).getD i defaultPlayer = ps.getD i defaultPlayer := by
  intro m
  induction m with
  | zero => intro i _; rfl
  | succ m ih =>
      intro i hi
      show (checkStep (checkLoop m ps) m).getD i defaultPlayer = _
      unfold checkStep
      rw [getD_set_ne _ _ _ _ _ (by omega)]
      exact ih i (by omega)

/-- After `m` iterations of the collision loop, every already-processed
player is exactly the result of `check_collision` against the traces of
the original (post-move) player list. -/
theorem checkLoop_getD_lt (ps : List Player) : ∀ (m : Nat),
    m ≤ ps.length → ∀ i, i < m →
    (checkLoop m ps).getD i defaultPlayer
      = (ps.getD i defaultPlayer).check_collision (allTraces ps) := by
  intro m
  induction m with
  | zero => intro _ i hi; omega
  | succ m ih =>
      intro hm i hi
      show (checkStep (checkLoop m ps) m).getD i defaultPlayer = _
      unfold checkStep
      by_cases him : i = m
      · subst him
        rw [getD_set_self _ _ _ _ (by rw [length_checkLoop]; omega)]
        rw [checkLoop_getD_ge ps i i le_rfl, allTraces_checkLoop ps i]
      · rw [getD_set_ne _ _ _ _ _ (by omega)]
        exact ih (by omega) i (by omega)

/-- The post-move player list of one tick of `Board.think`. -/
def movedPlayers (t : Trig) (b : Board) (petals : List Bool)
    (delta_ms : ℚ) : List Player :=
  (b.applyInput petals).players.map (fun p => p.move t delta_ms)

theorem think_players_eq (t : Trig) (b : Board) (petals : List Bool)
    (delta_ms : ℚ) :
    (Board.think t b petals delta_ms).players
      = checkLoop (movedPlayers t b petals delta_ms).length
          (movedPlayers t b petals delta_ms) := rfl

/-! ### Reachable agent states: operation sequences on a player -/

theorem set_speed_traces (p : Player) (s : ℚ) :
    (p.set_speed s).traces = p.traces := by
  unfold Player.set_speed
  split
  · rfl
  · rfl

/-- The mutating operations of the agent interface. -/
inductive AgentOp where
  | set_direction (d : ℚ)
  | set_speed (s : ℚ)
  | move (delta_ms : ℚ)
  | check_collision (ts : List Seg)

/-- Apply one operation to a player. -/
def AgentOp.apply (t : Trig) (p : Player) : AgentOp → Player
  | .set_direction d => p.set_direction d
  | .set_speed s => p.set_speed s
  | .move delta_ms => p.move t delta_ms
  | .check_collision ts => p.check_collision ts

/-- Run a sequence of operations from a player state. -/
def runOps (t : Trig) (p : Player) (ops : List AgentOp) : Player :=
  ops.foldl (AgentOp.apply t) p

/-- A sequence is *turn-separated* when every `set_direction` that commits
(neither a reversal nor the unchanged direction) happens at a position
different from the last recorded waypoint. -/
def goodSeq (t : Trig) : Player → List AgentOp → Prop
  | _, [] => True
  | p, op :: rest =>
      (∀ d, op = AgentOp.set_direction d →
        pmod (d - p.direction) 360 ≠ 180 → d ≠ p.direction →
        p.pos ≠ p.traces.getLastD (0, 0)) ∧
      goodSeq t (AgentOp.apply t p op) rest

/-- One turn-separated step preserves "no zero-length completed
segment". -/
theorem noZero_step (t : Trig) (p : Player) (op : AgentOp)
    (hinv : ∀ s ∈ consecPairs p.traces, s.1 ≠ s.2)
    (hop : ∀ d, op = AgentOp.set_direction d →
      pmod (d - p.direction) 360 ≠ 180 → d ≠ p.direction →
      p.pos ≠ p.traces.getLastD (0, 0)) :
    ∀ s ∈ consecPairs (AgentOp.apply t p op).traces, s.1 ≠ s.2 := by
  cases op with
  | set_speed s =>
      intro seg hseg
      rw [show (AgentOp.apply t p (.set_speed s)).traces = p.traces
        from set_speed_traces p s] at hseg
      exact hinv seg hseg
  | move delta_ms =>
      intro seg hseg
      rw [show (AgentOp.apply t p (.move delta_ms)).traces = p.traces
        from move_traces t p delta_ms] at hseg
      exact hinv seg hseg
  | check_collision ts =>
      intro seg hseg
      rw [show (AgentOp.apply t p (.check_collision ts)).traces = p.traces
        from check_collision_traces p ts] at hseg
      exact hinv seg hseg
  | set_direction d =>
      show ∀ s ∈ consecPairs (p.set_direction d).traces, s.1 ≠ s.2
      by_cases hrev : pmod (d - p.direction) 360 = 180
      · rw [set_direction_reversal p d hrev]
        exact hinv
      · by_cases hne : d = p.direction
        · rw [hne, set_direction_same]
          exact hinv
        · rw [set_direction_commit p d hne hrev]
          dsimp only
          by_cases htr : p.traces = []
          · rw [htr]
            intro seg hseg
            cases hseg
          · rw [consecPairs_append_singleton p.traces p.pos htr]
            intro seg hseg
            rcases List.mem_append.mp hseg with hm | hm
            · exact hinv seg hm
            · rw [List.mem_singleton.mp hm]
              exact Ne.symm (hop d rfl hrev hne)

/-- Turn-separated sequences never create a zero-length completed
segment. -/
theorem noZero_runOps (t : Trig) : ∀ (ops : List AgentOp) (p : Player),
    (∀ s ∈ consecPairs p.traces, s.1 ≠ s.2) →
    goodSeq t p ops →
    ∀ s ∈ consecPairs (runOps t p ops).traces, s.1 ≠ s.2 := by
  intro ops
  induction ops with
  | nil => intro p hinv _; exact hinv
  | cons op rest ih =>
      intro p hinv hgood
      rcases hgood with ⟨hop, hrest⟩
      show ∀ s ∈ consecPairs (runOps t (AgentOp.apply t p op) rest).traces,
        s.1 ≠ s.2
      exact ih (AgentOp.apply t p op) (noZero_step t p op hinv hop) hrest

/-! ### Branch lemmas for concrete evaluation of `collides` -/

theorem isclose_zero_of_eq (x : ℚ) (h : x = 0) : isclose x 0 = true :=
  (isclose_zero_iff x).mpr h

theorem isclose_zero_ne (x : ℚ) (h : x ≠ 0) : isclose x 0 = false := by
  cases hb : isclose x 0
  · rfl
  · exact absurd ((isclose_zero_iff x).mp hb) h

theorem collides_coincident (a b : Seg) (hn : numerator a b = 0)
    (hd : denominator_a a b = 0) : collides a b = true := by
  unfold collides
  rw [if_pos (by rw [isclose_zero_of_eq _ hn, isclose_zero_of_eq _ hd]; rfl)]

theorem collides_parallel (a b : Seg) (hn : numerator a b = 0)
    (hd : denominator_a a b ≠ 0) : collides a b = false := by
  unfold collides
  have hc : ¬((isclose (numerator a b) 0 &&
      isclose (denominator_a a b) 0) = true) := by
    rw [isclose_zero_of_eq _ hn, isclose_zero_ne _ hd]
    simp
  rw [if_neg hc, if_pos (isclose_zero_of_eq _ hn)]

theorem collides_interior_iff (a b : Seg) (hn : numerator a b ≠ 0) :
    collides a b = true ↔
      (0 < denominator_a a b / numerator a b ∧
       denominator_a a b / numerator a b < 1 ∧
       0 < denominator_b a b / numerator a b ∧
       denominator_b a b / numerator a b < 1) := by
  unfold collides
  rw [if_neg (by rw [isclose_zero_ne _ hn]; simp),
    if_neg (by rw [isclose_zero_ne _ hn]; exact Bool.false_ne_true)]
  show decide _ = true ↔ _
  rw [decide_eq_true_eq]

/-! ### Witness fixtures -/

/-- Trig oracle agreeing with sin/cos at direction 0 (the only direction
at which witnesses using it evaluate the oracle): sin 0 = 0, cos 0 = 1. -/
def trigNorth : Trig := { sin := fun _ => 0, cos := fun _ => 1 }

/-- Trig oracle agreeing with sin/cos at directions 0 and 90. -/
def trigCross : Trig :=
  { sin := fun d => if d = 90 then 1 else 0,
    cos := fun d => if d = 90 then 0 else 1 }

/-- A dead player fixture. -/
def deadPlayerW : Player :=
  { pos := (1, 2), direction := 90, speed := 3,
    traces := [(0, 0), (1, 2)], dead := true }

/-- A live player whose live segment runs from (0,-1) up to (0,1). -/
def crossPlayerW : Player :=
  { pos := (0, 1), direction := 0, speed := 60,
    traces := [(0, -1)], dead := false }

/-! ### The claims -/

/-- C1: `collides` follows the three-branch contract: coincident
(`numerator` and `denominator_a` both pass the zero test) gives true;
parallel (`numerator` alone passes) gives false; otherwise the result is
true exactly when both intersection parameters `u_a = denominator_a /
numerator` and `u_b = denominator_b / numerator` lie strictly in (0, 1),
so parameters hitting an endpoint (u = 0 or u = 1) report no
intersection. -/
theorem C1_collides_branch_contract (a b : Seg) :
    (isclose (numerator a b) 0 = true ∧
        isclose (denominator_a a b) 0 = true →
      collides a b = true) ∧
    (isclose (numerator a b) 0 = true ∧
        isclose (denominator_a a b) 0 = false →
      collides a b = false) ∧
    (isclose (numerator a b) 0 = false →
      (collides a b = true ↔
        (0 < denominator_a a b / numerator a b ∧
         denominator_a a b / numerator a b < 1 ∧
         0 < denominator_b a b / numerator a b ∧
         denominator_b a b / numerator a b < 1))) ∧
    (isclose (numerator a b) 0 = false →
      (denominator_a a b / numerator a b = 0 ∨
       denominator_a a b / numerator a b = 1 ∨
       denominator_b a b / numerator a b = 0 ∨
       denominator_b a b / numerator a b = 1) →
      collides a b = false) := by
  unfold collides
  refine ⟨?_, ?_, ?_, ?_⟩
  · rintro ⟨h1, h2⟩
    rw [if_pos (by rw [h1, h2]; rfl)]
  · rintro ⟨h1, h2⟩
    rw [if_neg (by rw [h1, h2]; exact Bool.false_ne_true), if_pos h1]
  · intro h
    rw [if_neg (by rw [h]; simp), if_neg (by rw [h]; exact Bool.false_ne_true)]
    show decide _ = true ↔ _
    rw [decide_eq_true_eq]
  · intro h hu
    rw [if_neg (by rw [h]; simp), if_neg (by rw [h]; exact Bool.false_ne_true)]
    show decide _ = false
    rw [decide_eq_false_iff_not]
    rintro ⟨c1, c2, c3, c4⟩
    rcases hu with h0 | h0 | h0 | h0
    · rw [h0] at c1; exact lt_irrefl _ c1
    · rw [h0] at c2; exact lt_irrefl _ c2
    · rw [h0] at c3; exact lt_irrefl _ c3
    · rw [h0] at c4; exact lt_irrefl _ c4

/-- C1 witness: all four branches exercised at concrete segments. -/
theorem C1_witness :
    collides ((0, -1), (0, 1)) ((-1, 0), (1, 0)) = true ∧
    collides ((0, 0), (1, 0)) ((0, 1), (1, 1)) = false ∧
    collides ((0, 0), (1, 0)) ((0, 0), (1, 0)) = true ∧
    collides ((0, 0), (0, 2)) ((0, 2), (2, 2)) = false := by
  refine ⟨?_, ?_, ?_, ?_⟩
  · exact ((C1_collides_branch_contract _ _).2.2.1
      (isclose_zero_ne _ (by norm_num [numerator]))).mpr
      (by norm_num [numerator, denominator_a, denominator_b])
  · exact (C1_collides_branch_contract _ _).2.1
      ⟨isclose_zero_of_eq _ (by norm_num [numerator]),
       isclose_zero_ne _ (by norm_num [denominator_a])⟩
  · exact (C1_collides_branch_contract _ _).1
      ⟨isclose_zero_of_eq _ (by norm_num [numerator]),
       isclose_zero_of_eq _ (by norm_num [denominator_a])⟩
  · exact (C1_collides_branch_contract _ _).2.2.2
      (isclose_zero_ne _ (by norm_num [numerator]))
      (Or.inr (Or.inl (by norm_num [denominator_a, numerator])))

/-- C8 counterexample: there is NO nonzero value that the zero test
classifies as zero — `math.isclose(x, 0)` with the default `abs_tol = 0`
is exact equality, refuting the claim that the test admits a tolerance
around zero. -/
theorem C8_counterexample : ¬ ∃ x : ℚ, x ≠ 0 ∧ isclose x 0 = true := by
  rintro ⟨x, hx, h⟩
  exact hx ((isclose_zero_iff x).mp h)

/-- C8 amended: the zero tests applied to `numerator` and
`denominator_a` use `math.isclose` with its default tolerances
(`rel_tol = 1e-9`, `abs_tol = 0`), which against 0 degenerate to exact
equality: the test accepts exactly `x = 0`. -/
theorem C8_isclose_zero_exact : ∀ x : ℚ, isclose x 0 = true ↔ x = 0 :=
  isclose_zero_iff

/-- C3: for a live player and non-negative `delta_ms`, `move` advances
the position by `speed * delta_ms / 1000` along the heading (sin on x,
minus cos on y) and the player ends up dead exactly when the new position
satisfies x² + y² > 120²; `move` is a no-op for a dead player. -/
theorem C3_move_spec (t : Trig) (p : Player) (delta_ms : ℚ)
    (_hd : 0 ≤ delta_ms) :
    (p.dead = true → p.move t delta_ms = p) ∧
    (p.dead = false →
      (p.move t delta_ms).pos =
        (p.pos.1 + p.speed * delta_ms / 1000 * t.sin p.direction,
         p.pos.2 - p.speed * delta_ms / 1000 * t.cos p.direction) ∧
      ((p.move t delta_ms).dead = true ↔
        (p.move t delta_ms).pos.1 ^ 2 + (p.move t delta_ms).pos.2 ^ 2
          > 120 ^ 2)) :=
  ⟨move_dead t p delta_ms,
    fun h => ⟨move_alive_pos t p delta_ms h, move_alive_dead_iff t p delta_ms h⟩⟩

/-- C3 witness: a dead player does not move; the spawn player moving one
second straight up ends at (-50, -60), inside the disc, hence alive. -/
theorem C3_witness :
    deadPlayerW.move trigNorth 5 = deadPlayerW ∧
    ((Player.init (-50, 0)).move trigNorth 1000).dead = false := by
  constructor
  · exact (C3_move_spec trigNorth deadPlayerW 5 (by norm_num)).1 rfl
  · have h := (C3_move_spec trigNorth (Player.init (-50, 0)) 1000
      (by norm_num)).2 rfl
    rcases h with ⟨hpos, hiff⟩
    cases hb : ((Player.init (-50, 0)).move trigNorth 1000).dead
    · rfl
    · exfalso
      have hgt := hiff.mp hb
      rw [hpos] at hgt
      revert hgt
      norm_num [Player.init, trigNorth]

/-- C4: on a live player, `check_collision` marks the player dead exactly
when some candidate that is not structurally equal to the player's own
live segment `(trail.last, position)` collides with that live segment;
in particular a list containing only the player's own live segment leaves
the player entirely unchanged. -/
theorem C4_check_collision_spec (p : Player) (ts : List Seg)
    (h : p.dead = false) :
    ((p.check_collision ts).dead = true ↔
      ∃ trace ∈ ts, trace ≠ p.my_latest_trace ∧
        collides p.my_latest_trace trace = true) ∧
    p.check_collision [p.my_latest_trace] = p := by
  constructor
  · exact check_collision_dead_iff p ts h
  · rw [check_collision_def, if_neg (by rw [h]; exact Bool.false_ne_true)]
    refine collision_foldl_id _ _ ?_ p
    intro trace htr
    exact Or.inl (List.mem_singleton.mp htr)

/-- C4 witness: a crossing candidate kills the player; the player's own
live segment alone does not. -/
theorem C4_witness :
    ((crossPlayerW.check_collision [((-1, 0), (1, 0))]).dead = true) ∧
    crossPlayerW.check_collision [crossPlayerW.my_latest_trace]
      = crossPlayerW := by
  constructor
  · refine (C4_check_collision_spec crossPlayerW [((-1, 0), (1, 0))]
      rfl).1.mpr ⟨((-1, 0), (1, 0)), List.mem_singleton.mpr rfl, ?_, ?_⟩
    · show ((-1, 0), (1, 0)) ≠ (((0 : ℚ), (-1 : ℚ)), ((0 : ℚ), (1 : ℚ)))
      norm_num
    · show collides (((0 : ℚ), (-1 : ℚ)), ((0 : ℚ), (1 : ℚ)))
        ((-1, 0), (1, 0)) = true
      rw [collides_interior_iff _ _ (by norm_num [numerator])]
      norm_num [numerator, denominator_a, denominator_b]
  · exact (C4_check_collision_spec crossPlayerW
      [crossPlayerW.my_latest_trace] rfl).2

/-- C5: `set_direction` with the unchanged direction is a no-op; with any
direction that differs and is not a 180° reversal it commits the new
direction and appends the current position as a waypoint, leaving all
other fields unchanged. -/
theorem C5_set_direction_spec (p : Player) (d : ℚ) :
    (d = p.direction → p.set_direction d = p) ∧
    (d ≠ p.direction → pmod (d - p.direction) 360 ≠ 180 →
      p.set_direction d =
        { p with direction := d, traces := p.traces ++ [p.pos] }) := by
  constructor
  · intro h
    rw [h, set_direction_same]
  · intro hne hrev
    exact set_direction_commit p d hne hrev

/-- C5 witness: same-direction call is a no-op; a 90° turn commits and
appends the current position. -/
theorem C5_witness :
    (Player.init (0, 0)).set_direction 0 = Player.init (0, 0) ∧
    (Player.init (0, 0)).set_direction 90 =
      { pos := (0, 0), direction := 90, speed := 60,
        traces := [(0, 0), (0, 0)], dead := false } := by
  constructor
  · exact (C5_set_direction_spec (Player.init (0, 0)) 0).1 rfl
  · exact (C5_set_direction_spec (Player.init (0, 0)) 90).2
      (by norm_num [Player.init])
      (by norm_num [Player.init, pmod])

/-- C9: invalid inputs are silent no-ops: a negative speed request leaves
the player unchanged while any non-negative speed is accepted, and a 180°
reversal request leaves the player unchanged; the operations are total,
so nothing is signalled to the caller. -/
theorem C9_invalid_input_noop (p : Player) (s d : ℚ) :
    (s < 0 → p.set_speed s = p) ∧
    (0 ≤ s → p.set_speed s = { p with speed := s }) ∧
    (pmod (d - p.direction) 360 = 180 → p.set_direction d = p) :=
  ⟨set_speed_neg p s, set_speed_nonneg p s, set_direction_reversal p d⟩

/-- C9 witness: speed −1 rejected, speed 0 accepted, direction 180 (a
reversal of the default heading 0) rejected. -/
theorem C9_witness :
    (Player.init (0, 0)).set_speed (-1) = Player.init (0, 0) ∧
    (Player.init (0, 0)).set_speed 0 =
      { pos := (0, 0), direction := 0, speed := 0,
        traces := [(0, 0)], dead := false } ∧
    (Player.init (0, 0)).set_direction 180 = Player.init (0, 0) := by
  refine ⟨?_, ?_, ?_⟩
  · exact (C9_invalid_input_noop (Player.init (0, 0)) (-1) 0).1 (by norm_num)
  · exact (C9_invalid_input_noop (Player.init (0, 0)) 0 0).2.1 le_rfl
  · exact (C9_invalid_input_noop (Player.init (0, 0)) 0 180).2.2
      (by norm_num [Player.init, pmod])

/-- C10: frame conditions: `check_collision` changes at most the dead
flag (and only from alive to dead), `move` changes at most the position
and the dead flag (only alive to dead), and `set_speed` never touches the
traces — the trail is extended only by `set_direction`. -/
theorem C10_frame_conditions (p : Player) (ts : List Seg) (t : Trig)
    (delta_ms s : ℚ) :
    ((p.check_collision ts).pos = p.pos ∧
     (p.check_collision ts).traces = p.traces ∧
     (p.check_collision ts).direction = p.direction ∧
     (p.check_collision ts).speed = p.speed ∧
     (p.dead = true → (p.check_collision ts).dead = true)) ∧
    ((p.move t delta_ms).traces = p.traces ∧
     (p.move t delta_ms).direction = p.direction ∧
     (p.move t delta_ms).speed = p.speed ∧
     (p.dead = true → (p.move t delta_ms).dead = true)) ∧
    (p.set_speed s).traces = p.traces :=
  ⟨⟨check_collision_pos p ts, check_collision_traces p ts,
      check_collision_direction p ts, check_collision_speed p ts,
      check_collision_dead_mono p ts⟩,
    ⟨move_traces t p delta_ms, move_direction t p delta_ms,
      move_speed t p delta_ms, move_dead_mono t p delta_ms⟩,
    set_speed_traces p s⟩

/-- C10 witness: dead-flag monotonicity exercised on a dead player. -/
theorem C10_witness :
    (deadPlayerW.check_collision []).dead = true ∧
    (deadPlayerW.move trigNorth 7).dead = true :=
  ⟨(C10_frame_conditions deadPlayerW [] trigNorth 7 0).1.2.2.2.2 rfl,
   (C10_frame_conditions deadPlayerW [] trigNorth 7 0).2.1.2.2.2 rfl⟩

/-- `TronGame.think` with the `let`-binding of the source inlined. -/
theorem TronGame.think_eq (t : Trig) (g : TronGame) (petals : List Bool)
    (delta_ms now : ℚ) :
    TronGame.think t g petals delta_ms now =
      if (Board.think t g.board petals delta_ms).game_over then
        if !g.done then
          { g with board := Board.think t g.board petals delta_ms,
                   done := true,
                   duration := (now - g.start_time) / 1000000000 }
        else
          { g with board := Board.think t g.board petals delta_ms }
      else
        { g with board := Board.think t g.board petals delta_ms } := rfl

/-- C6: once `done` is latched, any further `think` keeps `done` true and
leaves the captured `duration` unchanged: the duration-capture branch is
guarded by `not done` and can therefore run at most once. -/
theorem C6_duration_latched (t : Trig) (g : TronGame) (petals : List Bool)
    (delta_ms now : ℚ) (h : g.done = true) :
    (TronGame.think t g petals delta_ms now).done = true ∧
    (TronGame.think t g petals delta_ms now).duration = g.duration := by
  rw [TronGame.think_eq]
  split
  · rw [h]
    rw [if_neg (by simp)]
    exact ⟨rfl, rfl⟩
  · exact ⟨h, rfl⟩

/-- A finished game fixture with a recorded duration. -/
def doneGameW : TronGame :=
  { board := Board.init, done := true, start_time := 0, duration := 5 }

/-- C6 witness: ticking a finished game keeps `done` and `duration`. -/
theorem C6_witness :
    (TronGame.think trigNorth doneGameW [] 100 999).done = true ∧
    (TronGame.think trigNorth doneGameW [] 100 999).duration
      = doneGameW.duration :=
  C6_duration_latched trigNorth doneGameW [] 100 999 rfl

/-- The live segment of player `i` in a player list. -/
def liveSeg (ps : List Player) (i : Nat) : Seg :=
  (ps.getD i defaultPlayer).my_latest_trace

/-- C2: within one tick of `Board.think`, all moves complete before any
collision check runs, and every check observes the same post-move traces
(`allTraces` of the post-move list, which the collision loop provably
leaves unchanged); hence if the post-move live segments of two distinct
players collide with each other, both players are dead at the end of the
tick — no turn-order advantage. -/
theorem C2_simultaneous_death (t : Trig) (b : Board) (petals : List Bool)
    (delta_ms : ℚ) (ps : List Player) (i j : Nat)
    (hps : ps = movedPlayers t b petals delta_ms)
    (hi : i < ps.length) (hj : j < ps.length) (_hij : i ≠ j)
    (htrj : (ps.getD j defaultPlayer).traces ≠ [])
    (htri : (ps.getD i defaultPlayer).traces ≠ [])
    (hne : liveSeg ps i ≠ liveSeg ps j)
    (hcij : collides (liveSeg ps i) (liveSeg ps j) = true)
    (hcji : collides (liveSeg ps j) (liveSeg ps i) = true) :
    ((Board.think t b petals delta_ms).players.getD i defaultPlayer).dead
      = true ∧
    ((Board.think t b petals delta_ms).players.getD j defaultPlayer).dead
      = true := by
  rw [think_players_eq, ← hps]
  have hmemj : liveSeg ps j ∈ allTraces ps := by
    unfold allTraces
    rw [List.mem_flatMap]
    exact ⟨ps.getD j defaultPlayer, getD_mem ps j defaultPlayer hj,
      my_latest_trace_mem_get_traces _ htrj⟩
  have hmemi : liveSeg ps i ∈ allTraces ps := by
    unfold allTraces
    rw [List.mem_flatMap]
    exact ⟨ps.getD i defaultPlayer, getD_mem ps i defaultPlayer hi,
      my_latest_trace_mem_get_traces _ htri⟩
  constructor
  · rw [checkLoop_getD_lt ps ps.length le_rfl i hi]
    exact check_collision_dead_of_exists _ _
      ⟨liveSeg ps j, hmemj, hne.symm, hcij⟩
  · rw [checkLoop_getD_lt ps ps.length le_rfl j hj]
    exact check_collision_dead_of_exists _ _
      ⟨liveSeg ps i, hmemi, hne, hcji⟩

/-- Player heading north whose tick-move crosses the arena center
column. -/
def playerA : Player :=
  { pos := (0, 2), direction := 0, speed := 4,
    traces := [(0, 2)], dead := false }

/-- Player heading east whose tick-move crosses the arena center row. -/
def playerB : Player :=
  { pos := (-2, 0), direction := 90, speed := 4,
    traces := [(-2, 0)], dead := false }

/-- Two-player board for the simultaneous-death witness. -/
def boardW : Board := { players := [playerA, playerB], local_player := 0 }

theorem movedPlayers_boardW_getD_zero :
    (movedPlayers trigCross boardW [] 1000).getD 0 defaultPlayer
      = playerA.move trigCross 1000 := rfl

theorem movedPlayers_boardW_getD_one :
    (movedPlayers trigCross boardW [] 1000).getD 1 defaultPlayer
      = playerB.move trigCross 1000 := rfl

theorem liveSeg_boardW_zero :
    liveSeg (movedPlayers trigCross boardW [] 1000) 0 = ((0, 2), (0, -2)) := by
  unfold liveSeg
  rw [movedPlayers_boardW_getD_zero]
  unfold Player.my_latest_trace
  rw [move_traces, move_alive_pos trigCross playerA 1000 rfl]
  norm_num [playerA, trigCross]

theorem liveSeg_boardW_one :
    liveSeg (movedPlayers trigCross boardW [] 1000) 1 = ((-2, 0), (2, 0)) := by
  unfold liveSeg
  rw [movedPlayers_boardW_getD_one]
  unfold Player.my_latest_trace
  rw [move_traces, move_alive_pos trigCross playerB 1000 rfl]
  norm_num [playerB, trigCross]

/-- C2 witness: on a two-player board whose post-move live segments cross
at the origin, one tick kills both players. -/
theorem C2_witness :
    ((Board.think trigCross boardW [] 1000).players.getD 0
      defaultPlayer).dead = true ∧
    ((Board.think trigCross boardW [] 1000).players.getD 1
      defaultPlayer).dead = true := by
  refine C2_simultaneous_death trigCross boardW [] 1000
    (movedPlayers trigCross boardW [] 1000) 0 1 rfl
    (by decide) (by decide) (by decide) ?_ ?_ ?_ ?_ ?_
  · rw [movedPlayers_boardW_getD_one, move_traces]
    exact List.cons_ne_nil _ _
  · rw [movedPlayers_boardW_getD_zero, move_traces]
    exact List.cons_ne_nil _ _
  · rw [liveSeg_boardW_zero, liveSeg_boardW_one]
    norm_num
  · rw [liveSeg_boardW_zero, liveSeg_boardW_one]
    rw [collides_interior_iff _ _ (by norm_num [numerator])]
    norm_num [numerator, denominator_a, denominator_b]
  · rw [liveSeg_boardW_zero, liveSeg_boardW_one]
    rw [collides_interior_iff _ _ (by norm_num [numerator])]
    norm_num [numerator, denominator_a, denominator_b]

theorem moveInitW :
    (Player.init (-50, 0)).move trigNorth 1000
      = { pos := (-50, -60), direction := 0, speed := 60,
          traces := [(-50, 0)], dead := false } := by
  rw [move_eq]
  rw [if_neg (by norm_num [Player.init])]
  rw [if_neg (by norm_num [Player.init, trigNorth])]
  norm_num [Player.init, trigNorth]

theorem runOpsW_eq :
    runOps trigNorth (Player.init (-50, 0))
        [AgentOp.move 1000, AgentOp.set_direction 90]
      = { pos := (-50, -60), direction := 90, speed := 60,
          traces := [(-50, 0), (-50, -60)], dead := false } := by
  show ((Player.init (-50, 0)).move trigNorth 1000).set_direction 90 = _
  rw [moveInitW]
  rw [set_direction_commit _ 90 (by norm_num) (by norm_num [pmod])]
  rfl

/-- C7 counterexample: the reachable state "move one second north from
spawn, then turn east" (whose exact positions agree with the real
sin/cos values at direction 0) has position (-50, -60), away from the
spawn point, yet its waypoint pairing `[trail..., position]` contains the
zero-length live segment ((-50,-60), (-50,-60)): the no-zero-length-
segment invariant as stated is false beyond the spawn instant. -/
theorem C7_counterexample :
    (((runOps trigNorth (Player.init (-50, 0))
        [AgentOp.move 1000, AgentOp.set_direction 90]).get_traces).any
      (fun s => s.1 = s.2)) = true ∧
    (runOps trigNorth (Player.init (-50, 0))
        [AgentOp.move 1000, AgentOp.set_direction 90]).pos ≠ (-50, 0) := by
  rw [runOpsW_eq]
  constructor
  · decide
  · decide

/-- C7 amended: under any operation sequence from spawn in which every
committing direction change happens at a position different from the last
recorded waypoint, the *completed*-segment list (consecutive waypoint
pairs of the trail, live head excluded) never contains a zero-length
segment; the live segment `(trail.last, position)` itself is zero-length
at spawn and immediately after every direction change. -/
theorem C7_no_zero_completed_segments (t : Trig) (sp : Pt)
    (ops : List AgentOp) (h : goodSeq t (Player.init sp) ops) :
    ∀ s ∈ consecPairs (runOps t (Player.init sp) ops).traces, s.1 ≠ s.2 := by
  refine noZero_runOps t ops (Player.init sp) ?_ h
  intro s hs
  exact absurd hs (List.not_mem_nil s)

/-- C7 witness: the move-then-turn sequence is turn-separated, and its
single completed segment ((-50,0), (-50,-60)) is not zero-length. -/
theorem C7_witness : ((-50, 0) : Pt) ≠ ((-50, -60) : Pt) :=
  C7_no_zero_completed_segments trigNorth (-50, 0)
    [AgentOp.move 1000, AgentOp.set_direction 90]
    (by
      refine ⟨?_, ?_, trivial⟩
      · intro d hop
        exact AgentOp.noConfusion hop
      · intro d hop h1 h2
        show ((Player.init (-50, 0)).move trigNorth 1000).pos
          ≠ ((Player.init (-50, 0)).move trigNorth 1000).traces.getLastD
            (0, 0)
        rw [moveInitW]
        norm_num)
    ((-50, 0), (-50, -60))
    (by rw [runOpsW_eq]; decide)
